import Mathlib

/-!
# The CARFAC engine adapter (`tools/carfac/carfac.go`)

A shallow embedding of the Go wrapper around the CARFAC cochlear model.

* Go `int` is a 64-bit two's-complement integer: values are `Int`, and the one
  arithmetic operation of the file (`c.numChannels * c.numSamples`) wraps to 64 bits.
* C `int` is a 32-bit two's-complement integer: `CInt`, and the conversion `C.int(x)`
  wraps to 32 bits.
* `float64` and `float32` are IEEE 754 bit patterns; `C.float(x)` rounds to nearest,
  ties to even.
* A pointer to floats (`*C.float`) is a `FloatPtr`: a pointer into Go memory is
  represented by the cells it points at, a pointer into the memory of the engine is an
  address. A nilable pointer to one number (`*float64`, `*C.float`) is an `Option`.
* A Go slice made by the caller or by `make` is a `List float32`; the slice that
  `floatAryToFloats` forges through `reflect.SliceHeader` keeps its header fields.
* A run-time panic is an `Except.error`; `make` panics as the runtime of a 64-bit
  platform does, on a negative length and on more than 2^48 bytes.
* The engine (the C functions behind `carfac.h`) is a parameter, `Engine σ`; every
  call that crosses into it is recorded, in order, in a list of `Call`s.
-/

namespace Carfac

/-! ## Machine integers -/

/-- Two's-complement reduction of an integer to a signed `w`-bit value. -/
def wrapSigned (w : Nat) (x : Int) : Int :=
  (x + ((2 ^ (w - 1) : Nat) : Int)) % ((2 ^ w : Nat) : Int) - ((2 ^ (w - 1) : Nat) : Int)

/-- The C type `int`: a 32-bit signed integer. -/
abbrev CInt := { v : Int // -2147483648 ≤ v ∧ v ≤ 2147483647 }

/-- The conversion `C.int(x)` of a Go `int`: the low 32 bits, read as signed. -/
def toCInt (x : Int) : CInt :=
  ⟨wrapSigned 32 x, by
    unfold wrapSigned
    norm_num
    constructor <;> omega⟩

/-- Go multiplication of two `int`s: the product wraps to 64 bits. -/
def mulInt (a b : Int) : Int := wrapSigned 64 (a * b)

/-! ## Floating point numbers -/

/-- A Go `float64`, as its IEEE 754 binary64 bit pattern. -/
structure float64 where
  bits : Nat
deriving DecidableEq, Repr

/-- A Go `float32` (C `float`), as its IEEE 754 binary32 bit pattern. -/
structure float32 where
  bits : Nat
deriving DecidableEq, Repr

/-- The zero value of `float32`, `+0.0`. -/
def float32.zero : float32 := ⟨0⟩

/-- The `float64` number `+0.0`. -/
def float64.zero : float64 := ⟨0⟩

/-- Drop the low `k` bits of `m`, rounding to nearest, ties to even. -/
def roundShift (m k : Nat) : Nat :=
  let q := m / 2 ^ k
  let r := m % 2 ^ k
  if 2 * r < 2 ^ k then q
  else if 2 ^ k < 2 * r then q + 1
  else if q % 2 = 0 then q else q + 1

/-- The conversion `C.float(x)` of a `float64`: the nearest `float32`, ties to even;
values beyond the `float32` range become an infinity, a NaN stays a (quiet) NaN. -/
def toCFloat (x : float64) : float32 :=
  let sign := x.bits / 2 ^ 63 % 2
  let e := x.bits / 2 ^ 52 % 2 ^ 11
  let m := x.bits % 2 ^ 52
  let s := sign * 2 ^ 31
  if e = 2047 then
    if m = 0 then ⟨s + 0x7f800000⟩
    else ⟨s + 0x7fc00000 + m / 2 ^ 29 % 2 ^ 22⟩
  else if e = 0 then ⟨s⟩
  else
    let sig := m + 2 ^ 52
    if 897 ≤ e then
      let body := (e - 897) * 2 ^ 23 + roundShift sig 29
      if 0x7f800000 ≤ body then ⟨s + 0x7f800000⟩ else ⟨s + body⟩
    else ⟨s + roundShift sig (29 + (897 - e))⟩

/-! ## Panics -/

/-- The run-time panics the adapter can raise. -/
inductive Panic where
  /-- `make([]float32, n)` with `n` negative or too large: `makeslice: len out of range`. -/
  | makesliceLenOutOfRange
  /-- `floats[0]` on a slice of length zero. -/
  | indexOutOfRange
deriving DecidableEq, Repr

deriving instance DecidableEq for Except

/-! ## Buffer marshaling -/

/-- A pointer to floats, `*C.float`. The adapter takes the address of the first cell of a
Go slice, and then the pointer is represented by the cells of that slice; the engine hands
back pointers into its own memory, which are addresses the adapter never reads through. -/
inductive FloatPtr where
  | goMem (cells : List float32)
  | cMem (addr : Nat)
deriving DecidableEq, Repr

/-- The C struct `float_ary`: `len`, a C `int`, and `data`, a pointer to floats. -/
structure float_ary where
  len : CInt
  data : FloatPtr
deriving DecidableEq, Repr

/-- The Go struct `reflect.SliceHeader`, with `Data` kept as the pointer it was made from. -/
structure SliceHeader where
  Data : FloatPtr
  Len : Int
  Cap : Int
deriving DecidableEq, Repr

/-- The Go builtin `len` on a slice: the `Len` field of its header. -/
def SliceHeader.len (s : SliceHeader) : Int := s.Len

/-- The most bytes one allocation of the Go runtime may have on a 64-bit platform, 2^48. -/
def maxAlloc : Int := 281474976710656

/-- The Go builtin `make([]float32, length)`: the runtime panics when the length is
negative or when its 4-byte elements take more than `maxAlloc` bytes, that is for a
length above 2^46; otherwise `make` gives `length` zeros. -/
def makeFloats (length : Int) : Except Panic (List float32) :=
  if length < 0 ∨ maxAlloc < 4 * length then .error .makesliceLenOutOfRange
  else .ok (List.replicate length.toNat float32.zero)

/-- The Go expression `&floats[0]`: panics when the slice is empty, and otherwise points
at the cells of the slice. -/
def addrOfFirst (floats : List float32) : Except Panic FloatPtr :=
  if 0 < floats.length then .ok (.goMem floats) else .error .indexOutOfRange

/-- Go `newFloatAry`. -/
def newFloatAry (length : Int) : Except Panic (float_ary × List float32) :=
  match makeFloats length with
  | .error p => .error p
  | .ok floats =>
    match addrOfFirst floats with
    | .error p => .error p
    | .ok data => .ok (⟨toCInt length, data⟩, floats)

/-- Go `floatAryToFloats`, at the one type it is called with, `C.float_ary`. -/
def floatAryToFloats (ary : float_ary) : SliceHeader :=
  ⟨ary.data, ary.len.val, ary.len.val⟩

/-- Go `floatsToFloatAry`. -/
def floatsToFloatAry (floats : List float32) : Except Panic float_ary :=
  match addrOfFirst floats with
  | .error p => .error p
  | .ok data => .ok ⟨toCInt (floats.length : Int), data⟩

/-! ## Formatting of error messages -/

/-- The character of a decimal digit. -/
def digitChar (d : Nat) : Char := Char.ofNat (48 + d)

/-- The decimal digits of `n`, most significant first; `fuel` bounds the number of digits. -/
def decimalDigits : Nat → Nat → List Char
  | 0, _ => []
  | fuel + 1, n =>
    if n < 10 then [digitChar n]
    else decimalDigits fuel (n / 10) ++ [digitChar (n % 10)]

/-- The decimal rendering of a natural number. -/
def formatNat (n : Nat) : List Char := decimalDigits (n + 1) n

/-- The number a list of decimal digits stands for. -/
def digitsValue (cs : List Char) : Nat :=
  cs.foldl (fun acc ch => acc * 10 + (ch.toNat - 48)) 0

/-- The rendering of an integer by the verb `%v`: decimal, with a leading `-` when negative. -/
def formatInt (i : Int) : String :=
  if i < 0 then String.mk ('-' :: formatNat i.natAbs) else String.mk (formatNat i.toNat)

/-- The message of `fmt.Errorf("Unable to retrieve NAP from CARFAC: %v", errnum)`. -/
def napErrorf (errnum : CInt) : String :=
  "Unable to retrieve NAP from CARFAC: " ++ formatInt errnum.val

/-- The message of `fmt.Errorf("Unable to retrieve BM from CARFAC: %v", errnum)`. -/
def bmErrorf (errnum : CInt) : String :=
  "Unable to retrieve BM from CARFAC: " ++ formatInt errnum.val

/-! ## The engine -/

/-- The C struct `carfac` that `create_carfac` returns by value: the three fields the
adapter reads, and `state`, which stands for everything else reachable from the struct. -/
structure C_carfac (σ : Type) where
  num_channels : CInt
  num_samples : CInt
  poles : float_ary
  state : σ
deriving DecidableEq, Repr

/-- What a retrieval entry point (`carfac_nap`, `carfac_bm`) does: the status it returns,
the engine struct it leaves behind, and the floats it stores from `data[0]` on. -/
structure Retrieval (σ : Type) where
  errnum : CInt
  cf : C_carfac σ
  written : List float32

/-- The C functions of `carfac.h`, which is not part of the sources: each takes the
arguments the adapter passes, and a function that receives a pointer to the engine struct
gives back the struct as it leaves it. The sample rate, the open-loop flag and the status
of a retrieval are C `int`s. What `carfac_run` may store into the buffer it is given is
not tracked: `Run` and `RunOpen` return nothing read from it. -/
structure Engine (σ : Type) where
  create_carfac : CInt → List (Option float32) → C_carfac σ
  carfac_reset : C_carfac σ → C_carfac σ
  carfac_run : C_carfac σ → float_ary → CInt → C_carfac σ
  carfac_nap : C_carfac σ → float_ary → Retrieval σ
  carfac_bm : C_carfac σ → float_ary → Retrieval σ

/-- One call across the boundary, with the arguments it was given. -/
inductive Call (σ : Type) where
  | create_carfac (sampleRate : CInt) (params : List (Option float32))
  | carfac_reset (cf : C_carfac σ)
  | carfac_run (cf : C_carfac σ) (ary : float_ary) (openLoop : CInt)
  | carfac_nap (cf : C_carfac σ) (ary : float_ary)
  | carfac_bm (cf : C_carfac σ) (ary : float_ary)
deriving DecidableEq, Repr

/-- The contents of a Go slice after C code has stored `written` from its first cell on:
the slice keeps its length, and stores past its end are not seen through it. -/
def storeThrough (floats written : List float32) : List float32 :=
  written.take floats.length ++ floats.drop written.length

/-! ## The adapter -/

/-- Go `carfac`; `cf`, a pointer to the engine struct that only this instance holds, is
represented by the struct it points at. -/
structure carfac (σ : Type) where
  numChannels : Int
  numSamples : Int
  sampleRate : Int
  poles : SliceHeader
  openLoop : Bool
  cf : C_carfac σ
deriving DecidableEq, Repr

/-- Go `(*carfac).NumChannels`. -/
def carfac.NumChannels {σ : Type} (c : carfac σ) : Int := c.numChannels

/-- Go `(*carfac).NumSamples`. -/
def carfac.NumSamples {σ : Type} (c : carfac σ) : Int := c.numSamples

/-- Go `(*carfac).SampleRate`. -/
def carfac.SampleRate {σ : Type} (c : carfac σ) : Int := c.sampleRate

/-- Go `(*carfac).Poles`. -/
def carfac.Poles {σ : Type} (c : carfac σ) : SliceHeader := c.poles

/-- Go `CARFACParams`; a field of type `*float64` is `none` when the pointer is nil. -/
structure CARFACParams where
  SampleRate : Int
  VelocityScale : Option float64 := none
  VOffset : Option float64 := none
  MinZeta : Option float64 := none
  MaxZeta : Option float64 := none
  ZeroRatio : Option float64 := none
  HighFDampingCompression : Option float64 := none
  ERBPerStep : Option float64 := none
  ERBBreakFreq : Option float64 := none
  ERBQ : Option float64 := none
  TauLPF : Option float64 := none
  Tau1Out : Option float64 := none
  Tau1In : Option float64 := none
  ACCornerHz : Option float64 := none
  StageGain : Option float64 := none
  AGC1Scale0 : Option float64 := none
  AGC1ScaleMul : Option float64 := none
  AGC2Scale0 : Option float64 := none
  AGC2ScaleMul : Option float64 := none
  TimeConstant0 : Option float64 := none
  TimeConstantMul : Option float64 := none
  AGCMixCoeff : Option float64 := none
deriving DecidableEq, Repr

/-- Go `CARFACParams.cFloat`. -/
def CARFACParams.cFloat (_c : CARFACParams) (f : Option float64) : Option float32 :=
  match f with
  | none => none
  | some v => some (toCFloat v)

/-- The optional arguments of `create_carfac`, in the order `New` passes them. -/
def CARFACParams.cArgs (cfp : CARFACParams) : List (Option float32) :=
  [ cfp.cFloat cfp.VelocityScale,
    cfp.cFloat cfp.VOffset,
    cfp.cFloat cfp.MinZeta,
    cfp.cFloat cfp.MaxZeta,
    cfp.cFloat cfp.ZeroRatio,
    cfp.cFloat cfp.HighFDampingCompression,
    cfp.cFloat cfp.ERBPerStep,
    cfp.cFloat cfp.ERBBreakFreq,
    cfp.cFloat cfp.ERBQ,
    cfp.cFloat cfp.TauLPF,
    cfp.cFloat cfp.Tau1Out,
    cfp.cFloat cfp.Tau1In,
    cfp.cFloat cfp.ACCornerHz,
    cfp.cFloat cfp.StageGain,
    cfp.cFloat cfp.AGC1Scale0,
    cfp.cFloat cfp.AGC1ScaleMul,
    cfp.cFloat cfp.AGC2Scale0,
    cfp.cFloat cfp.AGC2ScaleMul,
    cfp.cFloat cfp.TimeConstant0,
    cfp.cFloat cfp.TimeConstantMul,
    cfp.cFloat cfp.AGCMixCoeff ]

/-- What a call of `New` does: the engine calls it makes, in order, and the instance it
returns. `New` has no error result and no statement that can panic. -/
structure Created (σ : Type) where
  calls : List (Call σ)
  result : carfac σ

/-- Go `New`. The finalizer it registers runs at a time the collector chooses and is
not part of the embedding. -/
def New {σ : Type} (E : Engine σ) (cfp : CARFACParams) : Created σ :=
  let cf := E.create_carfac (toCInt cfp.SampleRate) cfp.cArgs
  ⟨[Call.create_carfac (toCInt cfp.SampleRate) cfp.cArgs],
   ⟨cf.num_channels.val, cf.num_samples.val, cfp.SampleRate, floatAryToFloats cf.poles,
    false, cf⟩⟩

/-- What a method call does: the engine calls it makes, in order; the instance afterwards
(the receiver is a pointer); and what it returns, or the panic that ended it. -/
structure Outcome (σ α : Type) where
  calls : List (Call σ)
  self : carfac σ
  ret : Except Panic α

/-- Go `(*carfac).Reset`. -/
def carfac.Reset {σ : Type} (E : Engine σ) (c : carfac σ) : Outcome σ Unit :=
  ⟨[Call.carfac_reset c.cf], { c with cf := E.carfac_reset c.cf }, .ok ()⟩

/-- Go `(*carfac).RunOpen`. -/
def carfac.RunOpen {σ : Type} (E : Engine σ) (c : carfac σ) (buffer : List float32) :
    Outcome σ Unit :=
  match floatsToFloatAry buffer with
  | .error p => ⟨[], c, .error p⟩
  | .ok ary =>
    ⟨[Call.carfac_run c.cf ary (toCInt 1)], { c with cf := E.carfac_run c.cf ary (toCInt 1) },
     .ok ()⟩

/-- Go `(*carfac).Run`. -/
def carfac.Run {σ : Type} (E : Engine σ) (c : carfac σ) (buffer : List float32) :
    Outcome σ Unit :=
  match floatsToFloatAry buffer with
  | .error p => ⟨[], c, .error p⟩
  | .ok ary =>
    ⟨[Call.carfac_run c.cf ary (toCInt 0)], { c with cf := E.carfac_run c.cf ary (toCInt 0) },
     .ok ()⟩

/-- Go `(*carfac).NAP`; the two results are a slice, `none` when nil, and an error,
`none` when nil and otherwise its message. -/
def carfac.NAP {σ : Type} (E : Engine σ) (c : carfac σ) :
    Outcome σ (Option (List float32) × Option String) :=
  match newFloatAry (mulInt c.numChannels c.numSamples) with
  | .error p => ⟨[], c, .error p⟩
  | .ok (resultAry, resultFloats) =>
    let r := E.carfac_nap c.cf resultAry
    if r.errnum.val ≠ 0 then
      ⟨[Call.carfac_nap c.cf resultAry], { c with cf := r.cf },
       .ok (none, some (napErrorf r.errnum))⟩
    else
      ⟨[Call.carfac_nap c.cf resultAry], { c with cf := r.cf },
       .ok (some (storeThrough resultFloats r.written), none)⟩

/-- Go `(*carfac).BM`; the results are as for `NAP`. -/
def carfac.BM {σ : Type} (E : Engine σ) (c : carfac σ) :
    Outcome σ (Option (List float32) × Option String) :=
  match newFloatAry (mulInt c.numChannels c.numSamples) with
  | .error p => ⟨[], c, .error p⟩
  | .ok (resultAry, resultFloats) =>
    let r := E.carfac_bm c.cf resultAry
    if r.errnum.val ≠ 0 then
      ⟨[Call.carfac_bm c.cf resultAry], { c with cf := r.cf },
       .ok (none, some (bmErrorf r.errnum))⟩
    else
      ⟨[Call.carfac_bm c.cf resultAry], { c with cf := r.cf },
       .ok (some (storeThrough resultFloats r.written), none)⟩

/-! ## Sequences of calls -/

/-- A call of one of the five methods that reach the engine. -/
inductive Op where
  | Run (buffer : List float32)
  | RunOpen (buffer : List float32)
  | Reset
  | NAP
  | BM
deriving DecidableEq, Repr

/-- The instance after one call, whether the call returned or panicked. -/
def step {σ : Type} (E : Engine σ) (c : carfac σ) : Op → carfac σ
  | .Run buffer => (c.Run E buffer).self
  | .RunOpen buffer => (c.RunOpen E buffer).self
  | .Reset => (c.Reset E).self
  | .NAP => (c.NAP E).self
  | .BM => (c.BM E).self

/-- The instance after a sequence of calls, made in order. -/
def runOps {σ : Type} (E : Engine σ) (c : carfac σ) (ops : List Op) : carfac σ :=
  ops.foldl (step E) c

/-- The four metadata fields of two instances agree. -/
def sameMeta {σ : Type} (a b : carfac σ) : Prop :=
  a.numChannels = b.numChannels ∧ a.numSamples = b.numSamples ∧
  a.sampleRate = b.sampleRate ∧ a.poles = b.poles

/-- The descriptor with the given sample rate and every optional field unset. -/
def unsetParams (sampleRate : Int) : CARFACParams :=
  ⟨sampleRate, none, none, none, none, none, none, none, none, none, none, none, none, none,
   none, none, none, none, none, none, none, none⟩

/-- During the call with outcome `out` on the instance `c`, the entry point `carfac_nap`
was called and returned the status `s`. -/
def napReports {σ α : Type} (E : Engine σ) (c : carfac σ) (out : Outcome σ α) (s : CInt) :
    Prop :=
  ∃ ary, Call.carfac_nap c.cf ary ∈ out.calls ∧ (E.carfac_nap c.cf ary).errnum = s

/-- During the call with outcome `out` on the instance `c`, the entry point `carfac_bm`
was called and returned the status `s`. -/
def bmReports {σ α : Type} (E : Engine σ) (c : carfac σ) (out : Outcome σ α) (s : CInt) :
    Prop :=
  ∃ ary, Call.carfac_bm c.cf ary ∈ out.calls ∧ (E.carfac_bm c.cf ary).errnum = s

/-- The text `part` occurs in the text `whole`. -/
def occursIn (part whole : String) : Prop := part.data <:+: whole.data

/-! ## Two engines to evaluate the adapter on -/

/-- An engine with two channels and three samples a frame, and two poles at the address
4096; its state counts the frames it has run, and retrieval reports status 7 until a frame
has been run. -/
def countingEngine : Engine Nat where
  create_carfac := fun _ _ => ⟨⟨2, by decide⟩, ⟨3, by decide⟩, ⟨⟨2, by decide⟩, .cMem 4096⟩, 0⟩
  carfac_reset := fun cf => { cf with state := 0 }
  carfac_run := fun cf _ _ => { cf with state := cf.state + 1 }
  carfac_nap := fun cf ary =>
    if cf.state = 0 then ⟨⟨7, by decide⟩, cf, []⟩
    else ⟨⟨0, by decide⟩, cf, List.replicate ary.len.val.toNat ⟨1⟩⟩
  carfac_bm := fun cf ary =>
    if cf.state = 0 then ⟨⟨7, by decide⟩, cf, []⟩
    else ⟨⟨0, by decide⟩, cf, List.replicate ary.len.val.toNat ⟨2⟩⟩

/-- An engine whose construction hands back 2^31 - 1 channels and 2^31 - 1 samples, the
largest sizing a C `int` holds. -/
def hugeEngine : Engine Unit where
  create_carfac := fun _ _ =>
    ⟨⟨2147483647, by decide⟩, ⟨2147483647, by decide⟩, ⟨⟨2147483647, by decide⟩, .cMem 4096⟩, ()⟩
  carfac_reset := fun cf => cf
  carfac_run := fun cf _ _ => cf
  carfac_nap := fun cf _ => ⟨⟨0, by decide⟩, cf, []⟩
  carfac_bm := fun cf _ => ⟨⟨0, by decide⟩, cf, []⟩

/-- An engine whose construction hands back no channels, no samples and one pole. -/
def emptyEngine : Engine Unit where
  create_carfac := fun _ _ => ⟨⟨0, by decide⟩, ⟨0, by decide⟩, ⟨⟨1, by decide⟩, .cMem 4096⟩, ()⟩
  carfac_reset := fun cf => cf
  carfac_run := fun cf _ _ => cf
  carfac_nap := fun cf _ => ⟨⟨0, by decide⟩, cf, []⟩
  carfac_bm := fun cf _ => ⟨⟨0, by decide⟩, cf, []⟩

/-! ## Lemmas -/

theorem wrapSigned_32_eq (x : Int) (h1 : -2147483648 ≤ x) (h2 : x ≤ 2147483647) :
    wrapSigned 32 x = x := by
  unfold wrapSigned
  norm_num
  omega

theorem wrapSigned_64_eq (x : Int) (h1 : -9223372036854775808 ≤ x)
    (h2 : x ≤ 9223372036854775807) : wrapSigned 64 x = x := by
  unfold wrapSigned
  norm_num
  omega

theorem addrOfFirst_ok (floats : List float32) (h : floats ≠ []) :
    addrOfFirst floats = .ok (.goMem floats) := by
  unfold addrOfFirst
  have : 0 < floats.length := List.length_pos.mpr h
  simp [this]

theorem floatsToFloatAry_ok (floats : List float32) (h : floats ≠ []) :
    floatsToFloatAry floats = .ok ⟨toCInt (floats.length : Int), .goMem floats⟩ := by
  unfold floatsToFloatAry
  rw [addrOfFirst_ok floats h]

theorem newFloatAry_ok (length : Int) (h : 0 < length) (h2 : length ≤ 70368744177664) :
    newFloatAry length =
      .ok (⟨toCInt length, .goMem (List.replicate length.toNat float32.zero)⟩,
           List.replicate length.toNat float32.zero) := by
  have hn : ¬ (length < 0 ∨ maxAlloc < 4 * length) := by
    unfold maxAlloc
    omega
  have hne : List.replicate length.toNat float32.zero ≠ [] := by
    intro hnil
    have hl := congrArg List.length hnil
    simp at hl
    omega
  unfold newFloatAry makeFloats
  simp only [hn, if_false]
  rw [addrOfFirst_ok _ hne]

theorem newFloatAry_too_long (length : Int) (h : 70368744177664 < length) :
    newFloatAry length = .error Panic.makesliceLenOutOfRange := by
  have hn : length < 0 ∨ maxAlloc < 4 * length := by
    unfold maxAlloc
    omega
  unfold newFloatAry makeFloats
  simp only [hn, if_true]

theorem storeThrough_length (floats written : List float32) :
    (storeThrough floats written).length = floats.length := by
  unfold storeThrough
  simp
  omega

theorem Reset_meta {σ : Type} (E : Engine σ) (c : carfac σ) : sameMeta (c.Reset E).self c := by
  simp [sameMeta, carfac.Reset]

theorem Run_meta {σ : Type} (E : Engine σ) (c : carfac σ) (buffer : List float32) :
    sameMeta (c.Run E buffer).self c := by
  unfold carfac.Run sameMeta
  split <;> simp

theorem RunOpen_meta {σ : Type} (E : Engine σ) (c : carfac σ) (buffer : List float32) :
    sameMeta (c.RunOpen E buffer).self c := by
  unfold carfac.RunOpen sameMeta
  split <;> simp

theorem NAP_panicked {σ : Type} (E : Engine σ) (c : carfac σ) (p : Panic)
    (h : newFloatAry (mulInt c.numChannels c.numSamples) = .error p) :
    c.NAP E = ⟨[], c, .error p⟩ := by
  unfold carfac.NAP
  rw [h]

theorem NAP_called {σ : Type} (E : Engine σ) (c : carfac σ) (ary : float_ary)
    (floats : List float32)
    (h : newFloatAry (mulInt c.numChannels c.numSamples) = .ok (ary, floats)) :
    c.NAP E =
      ⟨[Call.carfac_nap c.cf ary], { c with cf := (E.carfac_nap c.cf ary).cf },
       if (E.carfac_nap c.cf ary).errnum.val ≠ 0 then
         .ok (none, some (napErrorf (E.carfac_nap c.cf ary).errnum))
       else .ok (some (storeThrough floats (E.carfac_nap c.cf ary).written), none)⟩ := by
  unfold carfac.NAP
  rw [h]
  by_cases hz : (E.carfac_nap c.cf ary).errnum.val = 0 <;> simp [hz]

theorem BM_panicked {σ : Type} (E : Engine σ) (c : carfac σ) (p : Panic)
    (h : newFloatAry (mulInt c.numChannels c.numSamples) = .error p) :
    c.BM E = ⟨[], c, .error p⟩ := by
  unfold carfac.BM
  rw [h]

theorem BM_called {σ : Type} (E : Engine σ) (c : carfac σ) (ary : float_ary)
    (floats : List float32)
    (h : newFloatAry (mulInt c.numChannels c.numSamples) = .ok (ary, floats)) :
    c.BM E =
      ⟨[Call.carfac_bm c.cf ary], { c with cf := (E.carfac_bm c.cf ary).cf },
       if (E.carfac_bm c.cf ary).errnum.val ≠ 0 then
         .ok (none, some (bmErrorf (E.carfac_bm c.cf ary).errnum))
       else .ok (some (storeThrough floats (E.carfac_bm c.cf ary).written), none)⟩ := by
  unfold carfac.BM
  rw [h]
  by_cases hz : (E.carfac_bm c.cf ary).errnum.val = 0 <;> simp [hz]

theorem NAP_meta {σ : Type} (E : Engine σ) (c : carfac σ) : sameMeta (c.NAP E).self c := by
  cases h : newFloatAry (mulInt c.numChannels c.numSamples) with
  | error p => rw [NAP_panicked E c p h]; simp [sameMeta]
  | ok r => rw [NAP_called E c r.1 r.2 h]; simp [sameMeta]

theorem BM_meta {σ : Type} (E : Engine σ) (c : carfac σ) : sameMeta (c.BM E).self c := by
  cases h : newFloatAry (mulInt c.numChannels c.numSamples) with
  | error p => rw [BM_panicked E c p h]; simp [sameMeta]
  | ok r => rw [BM_called E c r.1 r.2 h]; simp [sameMeta]

theorem step_meta {σ : Type} (E : Engine σ) (c : carfac σ) (op : Op) :
    sameMeta (step E c op) c := by
  cases op with
  | Run buffer => exact Run_meta E c buffer
  | RunOpen buffer => exact RunOpen_meta E c buffer
  | Reset => exact Reset_meta E c
  | NAP => exact NAP_meta E c
  | BM => exact BM_meta E c

theorem runOps_meta {σ : Type} (E : Engine σ) (ops : List Op) (c : carfac σ) :
    sameMeta (runOps E c ops) c := by
  induction ops generalizing c with
  | nil => simp [runOps, sameMeta]
  | cons op rest ih =>
    have h1 := step_meta E c op
    have h2 := ih (step E c op)
    unfold sameMeta at *
    simp only [runOps, List.foldl_cons] at h2 ⊢
    exact ⟨h2.1.trans h1.1, h2.2.1.trans h1.2.1, h2.2.2.1.trans h1.2.2.1,
      h2.2.2.2.trans h1.2.2.2⟩

theorem digitChar_toNat (d : Nat) (h : d < 10) : (digitChar d).toNat = 48 + d := by
  interval_cases d <;> rfl

theorem digitsValue_append (cs : List Char) (ch : Char) :
    digitsValue (cs ++ [ch]) = digitsValue cs * 10 + (ch.toNat - 48) := by
  simp [digitsValue, List.foldl_append]

theorem digitsValue_decimalDigits (fuel n : Nat) (h : n < fuel) :
    digitsValue (decimalDigits fuel n) = n := by
  induction fuel generalizing n with
  | zero => omega
  | succ k ih =>
    unfold decimalDigits
    split
    · rename_i hlt
      simp [digitsValue, digitChar_toNat n hlt]
    · rename_i hge
      rw [digitsValue_append, ih (n / 10) (by omega), digitChar_toNat _ (Nat.mod_lt _ (by decide))]
      omega

theorem formatNat_injective (a b : Nat) (h : formatNat a = formatNat b) : a = b := by
  have ha := digitsValue_decimalDigits (a + 1) a (by omega)
  have hb := digitsValue_decimalDigits (b + 1) b (by omega)
  unfold formatNat at h
  rw [h] at ha
  omega

theorem decimalDigits_no_minus (fuel n : Nat) : '-' ∉ decimalDigits fuel n := by
  induction fuel generalizing n with
  | zero => simp [decimalDigits]
  | succ k ih =>
    unfold decimalDigits
    have hd : ∀ d, d < 10 → '-' ≠ digitChar d := by
      intro d hd
      interval_cases d <;> decide
    split
    · rename_i hlt
      simp [hd n hlt]
    · simp only [List.mem_append, List.mem_singleton, not_or]
      exact ⟨ih _, hd _ (Nat.mod_lt _ (by decide))⟩

theorem formatInt_injective (a b : Int) (h : formatInt a = formatInt b) : a = b := by
  unfold formatInt at h
  by_cases ha : a < 0 <;> by_cases hb : b < 0 <;> simp only [ha, hb, if_true, if_false] at h
  · have hd : '-' :: formatNat a.natAbs = '-' :: formatNat b.natAbs := congrArg String.data h
    have := formatNat_injective _ _ (List.cons.inj hd).2
    omega
  · have hd : '-' :: formatNat a.natAbs = formatNat b.toNat := congrArg String.data h
    have hm : '-' ∈ formatNat b.toNat := by
      rw [← hd]
      simp
    exact absurd hm (decimalDigits_no_minus _ _)
  · have hd : formatNat a.toNat = '-' :: formatNat b.natAbs := congrArg String.data h
    have hm : '-' ∈ formatNat a.toNat := by
      rw [hd]
      simp
    exact absurd hm (decimalDigits_no_minus _ _)
  · have hd : formatNat a.toNat = formatNat b.toNat := congrArg String.data h
    have := formatNat_injective _ _ hd
    omega

theorem napErrorf_injective (s t : CInt) (h : napErrorf s = napErrorf t) : s = t := by
  unfold napErrorf at h
  have h2 := congrArg String.data h
  simp only [String.data_append] at h2
  have h3 := List.append_cancel_left h2
  exact Subtype.ext (formatInt_injective _ _ (String.ext h3))

theorem bmErrorf_injective (s t : CInt) (h : bmErrorf s = bmErrorf t) : s = t := by
  unfold bmErrorf at h
  have h2 := congrArg String.data h
  simp only [String.data_append] at h2
  have h3 := List.append_cancel_left h2
  exact Subtype.ext (formatInt_injective _ _ (String.ext h3))

theorem napErrorf_ne_bmErrorf (s t : CInt) : napErrorf s ≠ bmErrorf t := by
  intro h
  have h2 := congrArg (fun m => m.data.take 20) h
  simp [napErrorf, bmErrorf, String.data_append] at h2

theorem occursIn_napErrorf (s : CInt) :
    occursIn "NAP" (napErrorf s) ∧ occursIn (formatInt s.val) (napErrorf s) := by
  constructor
  · refine ⟨"Unable to retrieve ".data, (" from CARFAC: " ++ formatInt s.val).data, ?_⟩
    simp [napErrorf, String.data_append]
  · refine ⟨"Unable to retrieve NAP from CARFAC: ".data, [], ?_⟩
    simp [napErrorf, String.data_append]

theorem occursIn_bmErrorf (s : CInt) :
    occursIn "BM" (bmErrorf s) ∧ occursIn (formatInt s.val) (bmErrorf s) := by
  constructor
  · refine ⟨"Unable to retrieve ".data, (" from CARFAC: " ++ formatInt s.val).data, ?_⟩
    simp [bmErrorf, String.data_append]
  · refine ⟨"Unable to retrieve BM from CARFAC: ".data, [], ?_⟩
    simp [bmErrorf, String.data_append]

/-! ## Metadata -/

/-- C7. The metadata of an instance never changes: after any finite sequence of `Run`,
`RunOpen`, `Reset`, `NAP` and `BM` calls on the instance `New` returned, whether the calls
returned or panicked, `NumChannels`, `NumSamples`, `SampleRate` and `Poles` give what they
gave right after `New` (for `Poles`, the same slice: pointer, length and capacity), and
`SampleRate` is the sample rate of the descriptor. The four accessors are total
functions. -/
theorem metadata_immutable {σ : Type} (E : Engine σ) (cfp : CARFACParams) (ops : List Op) :
    (runOps E (New E cfp).result ops).NumChannels = (New E cfp).result.NumChannels ∧
    (runOps E (New E cfp).result ops).NumSamples = (New E cfp).result.NumSamples ∧
    (runOps E (New E cfp).result ops).SampleRate = (New E cfp).result.SampleRate ∧
    (runOps E (New E cfp).result ops).Poles = (New E cfp).result.Poles ∧
    (runOps E (New E cfp).result ops).SampleRate = cfp.SampleRate := by
  have h := runOps_meta E ops (New E cfp).result
  unfold sameMeta at h
  refine ⟨h.1, h.2.1, h.2.2.1, h.2.2.2, ?_⟩
  exact h.2.2.1.trans rfl

/-- An evaluation of `metadata_immutable`: five calls, one of them panicking, on an
instance of the counting engine. -/
theorem metadata_immutable_witness :
    (runOps countingEngine (New countingEngine (unsetParams 48000)).result
      [Op.NAP, Op.Run [⟨5⟩], Op.RunOpen [], Op.BM, Op.Reset]).SampleRate = 48000 :=
  (metadata_immutable countingEngine _ _).2.2.2.2

/-! ## Running a frame -/

/-- C5. An empty buffer is rejected on the Go side: `floatsToFloatAry` panics on it, so
`Run` and `RunOpen` panic without a call to the engine and leave the instance, engine
struct included, as it was. -/
theorem run_empty_rejected {σ : Type} (E : Engine σ) (c : carfac σ) :
    floatsToFloatAry [] = .error Panic.indexOutOfRange ∧
    (c.Run E []).ret = .error Panic.indexOutOfRange ∧
    (c.Run E []).calls = [] ∧ (c.Run E []).self = c ∧
    (c.RunOpen E []).ret = .error Panic.indexOutOfRange ∧
    (c.RunOpen E []).calls = [] ∧ (c.RunOpen E []).self = c := by
  refine ⟨rfl, rfl, rfl, rfl, rfl, rfl, rfl⟩

/-- C10. On a non-empty buffer `Run` and `RunOpen` each return after exactly one call of
`carfac_run`, given the engine struct of the instance and the same descriptor: the one
`floatsToFloatAry` builds, whose data are the samples of the buffer and whose length field
is `C.int(len(buffer))`. The flag is 0 for `Run` and 1 for `RunOpen`, and the instance is
left with the engine struct that call produced. -/
theorem run_calls_engine_once {σ : Type} (E : Engine σ) (c : carfac σ)
    (buffer : List float32) (h : buffer ≠ []) :
    ∃ ary, floatsToFloatAry buffer = .ok ary ∧ ary.data = .goMem buffer ∧
      ary.len = toCInt (buffer.length : Int) ∧
      (c.Run E buffer).calls = [Call.carfac_run c.cf ary (toCInt 0)] ∧
      (c.RunOpen E buffer).calls = [Call.carfac_run c.cf ary (toCInt 1)] ∧
      (toCInt 0).val = 0 ∧ (toCInt 1).val = 1 ∧
      (c.Run E buffer).ret = .ok () ∧ (c.RunOpen E buffer).ret = .ok () ∧
      (c.Run E buffer).self = { c with cf := E.carfac_run c.cf ary (toCInt 0) } ∧
      (c.RunOpen E buffer).self = { c with cf := E.carfac_run c.cf ary (toCInt 1) } := by
  refine ⟨_, floatsToFloatAry_ok buffer h, rfl, rfl, ?_, ?_, by decide, by decide, ?_, ?_, ?_,
    ?_⟩ <;>
    simp only [carfac.Run, carfac.RunOpen, floatsToFloatAry_ok buffer h]

/-- An evaluation of `run_calls_engine_once` on a buffer of two samples: the descriptor
passed has the length field 2. -/
theorem run_calls_engine_once_witness :
    ([⟨3⟩, ⟨4⟩] : List float32) ≠ [] ∧
    ∃ ary, floatsToFloatAry [⟨3⟩, ⟨4⟩] = .ok ary ∧ ary.data = .goMem [⟨3⟩, ⟨4⟩] ∧
      ary.len.val = 2 ∧
      ((New countingEngine (unsetParams 48000)).result.Run
        countingEngine [⟨3⟩, ⟨4⟩]).calls =
        [Call.carfac_run (New countingEngine (unsetParams 48000)).result.cf ary (toCInt 0)] ∧
      ((New countingEngine (unsetParams 48000)).result.RunOpen
        countingEngine [⟨3⟩, ⟨4⟩]).calls =
        [Call.carfac_run (New countingEngine (unsetParams 48000)).result.cf ary (toCInt 1)] :=
  ⟨by decide,
   (run_calls_engine_once countingEngine _ [⟨3⟩, ⟨4⟩] (by decide)).imp
     (fun _ h => ⟨h.1, h.2.1, by rw [h.2.2.1]; decide, h.2.2.2.1, h.2.2.2.2.1⟩)⟩

/-! ## Creating an instance -/

/-- C4, as the code has it. `New` does not look at the sample rate: for every descriptor,
a sample rate of zero or below included, it calls `create_carfac` exactly once, with the
sample rate converted to a C `int` and the resolved optional fields, and it returns an
instance built on the struct that call gave back, whose `SampleRate` is the sample rate of
the descriptor. -/
theorem New_calls_engine {σ : Type} (E : Engine σ) (cfp : CARFACParams) :
    (New E cfp).calls = [Call.create_carfac (toCInt cfp.SampleRate) cfp.cArgs] ∧
    (New E cfp).result.cf = E.create_carfac (toCInt cfp.SampleRate) cfp.cArgs ∧
    (New E cfp).result.SampleRate = cfp.SampleRate :=
  ⟨rfl, rfl, rfl⟩

/-- C4 fails as stated: with a sample rate of 0, `New` calls the construction entry
point, passing it the sample rate 0, and returns an instance with `SampleRate() = 0`. -/
theorem New_nonpositive_rate_counterexample :
    (unsetParams 0).SampleRate ≤ 0 ∧
    (New countingEngine (unsetParams 0)).calls =
      [Call.create_carfac ⟨0, by decide⟩ (List.replicate 21 none)] ∧
    (New countingEngine (unsetParams 0)).result.SampleRate = 0 := by
  decide

/-- C8, as the code has it. `New` copies the sizing the engine hands back and checks none
of it: `NumChannels`, `NumSamples` and the length of `Poles` are the `num_channels`,
`num_samples` and `poles.len` of the struct `create_carfac` returned. So the instance has
as many poles as channels, and a positive number of channels and of samples, exactly when
the engine handed back such a struct. -/
theorem New_sizing {σ : Type} (E : Engine σ) (cfp : CARFACParams) :
    (New E cfp).result.NumChannels =
      (E.create_carfac (toCInt cfp.SampleRate) cfp.cArgs).num_channels.val ∧
    (New E cfp).result.NumSamples =
      (E.create_carfac (toCInt cfp.SampleRate) cfp.cArgs).num_samples.val ∧
    (New E cfp).result.Poles.len =
      (E.create_carfac (toCInt cfp.SampleRate) cfp.cArgs).poles.len.val ∧
    (New E cfp).result.Poles.Data =
      (E.create_carfac (toCInt cfp.SampleRate) cfp.cArgs).poles.data ∧
    (((New E cfp).result.Poles.len = (New E cfp).result.NumChannels ∧
        0 < (New E cfp).result.NumChannels ∧ 0 < (New E cfp).result.NumSamples) ↔
      ((E.create_carfac (toCInt cfp.SampleRate) cfp.cArgs).poles.len.val =
          (E.create_carfac (toCInt cfp.SampleRate) cfp.cArgs).num_channels.val ∧
        0 < (E.create_carfac (toCInt cfp.SampleRate) cfp.cArgs).num_channels.val ∧
        0 < (E.create_carfac (toCInt cfp.SampleRate) cfp.cArgs).num_samples.val)) :=
  ⟨rfl, rfl, rfl, rfl, Iff.rfl⟩

/-- C8 fails as stated: the sample rate is 48000, the engine hands back no channels, no
samples and one pole, and the instance has `len(Poles()) = 1`, `NumChannels() = 0` and
`NumSamples() = 0`. -/
theorem New_sizing_counterexample :
    0 < (unsetParams 48000).SampleRate ∧
    (New emptyEngine (unsetParams 48000)).result.Poles.len = 1 ∧
    (New emptyEngine (unsetParams 48000)).result.NumChannels = 0 ∧
    (New emptyEngine (unsetParams 48000)).result.NumSamples = 0 := by
  decide

/-! ## Optional parameters -/

/-- C3. `cFloat` gives nil exactly for an unset field and otherwise a pointer to the
override converted to `float32`. An unset field is never turned into a number, an
override of 0 is passed on as a 0 that differs from an unset field, and `New` hands
`create_carfac` every optional field as `cFloat` resolves it: nil for all 21 when none is
set. -/
theorem cFloat_resolves (c : CARFACParams) (f : Option float64) :
    (c.cFloat f = none ↔ f = none) ∧
    (∀ v, c.cFloat (some v) = some (toCFloat v)) ∧
    (∀ z, c.cFloat none ≠ some z) ∧
    c.cFloat (some float64.zero) = some float32.zero ∧
    c.cFloat (some float64.zero) ≠ c.cFloat none ∧
    (∀ (σ : Type) (E : Engine σ), (New E c).calls =
      [Call.create_carfac (toCInt c.SampleRate) c.cArgs]) ∧
    (unsetParams c.SampleRate).cArgs = List.replicate 21 none := by
  refine ⟨?_, fun _ => rfl, ?_, ?_, ?_, fun _ _ => rfl, rfl⟩
  · cases f <;> simp [CARFACParams.cFloat]
  · intro z hz
    simp [CARFACParams.cFloat] at hz
  · show some (toCFloat float64.zero) = some float32.zero
    decide
  · simp [CARFACParams.cFloat]

/-- An evaluation of `cFloat_resolves`: an override of 0.1 resolves to the `float32`
nearest to it. -/
theorem cFloat_resolves_witness :
    (unsetParams 48000).cFloat (some ⟨0x3FB999999999999A⟩) = some ⟨0x3DCCCCCD⟩ :=
  ((cFloat_resolves (unsetParams 48000) none).2.1 ⟨0x3FB999999999999A⟩).trans (by decide)

/-! ## Retrieving a derived signal -/

theorem runOps_New_sizing {σ : Type} (E : Engine σ) (cfp : CARFACParams) (ops : List Op) :
    (runOps E (New E cfp).result ops).numChannels ≤ 2147483647 ∧
    (runOps E (New E cfp).result ops).numSamples ≤ 2147483647 := by
  have h := runOps_meta E ops (New E cfp).result
  unfold sameMeta at h
  rw [h.1, h.2.1]
  exact ⟨(E.create_carfac (toCInt cfp.SampleRate) cfp.cArgs).num_channels.property.2,
    (E.create_carfac (toCInt cfp.SampleRate) cfp.cArgs).num_samples.property.2⟩

theorem mulInt_sizing (a b : Int) (ha : 0 < a) (hb : 0 < b) (ha2 : a ≤ 2147483647)
    (hb2 : b ≤ 2147483647) : mulInt a b = a * b ∧ 0 < a * b := by
  have hpos : 0 < a * b := Int.mul_pos ha hb
  have hle : a * b ≤ 2147483647 * 2147483647 :=
    Int.mul_le_mul ha2 hb2 (le_of_lt hb) (by decide)
  refine ⟨?_, hpos⟩
  unfold mulInt
  apply wrapSigned_64_eq <;> omega

/-- C1. Take an instance that `New` returned, after any sequence of calls, with
`NumChannels() > 0` and `NumSamples() > 0`. Whenever the call of `carfac_nap` that `NAP`
makes reports status 0, `NAP` returns a buffer of exactly `NumChannels() * NumSamples()`
floats. `NAP` makes that call, exactly once, when the product is at most 2^46; above
that `make` panics and `NAP` ends without a call to the engine. The same holds for `BM`
and `carfac_bm`. -/
theorem retrieval_length {σ : Type} (E : Engine σ) (cfp : CARFACParams) (ops : List Op)
    (c : carfac σ) (hc : c = runOps E (New E cfp).result ops)
    (hch : 0 < c.NumChannels) (hsm : 0 < c.NumSamples) :
    ((∀ s, napReports E c (c.NAP E) s → s.val = 0 →
        ∃ buf, (c.NAP E).ret = .ok (some buf, none) ∧
          (buf.length : Int) = c.NumChannels * c.NumSamples) ∧
      (c.NumChannels * c.NumSamples ≤ 70368744177664 →
        ∃ ary, (c.NAP E).calls = [Call.carfac_nap c.cf ary]) ∧
      (70368744177664 < c.NumChannels * c.NumSamples →
        (c.NAP E).calls = [] ∧ (c.NAP E).ret = .error Panic.makesliceLenOutOfRange)) ∧
    ((∀ s, bmReports E c (c.BM E) s → s.val = 0 →
        ∃ buf, (c.BM E).ret = .ok (some buf, none) ∧
          (buf.length : Int) = c.NumChannels * c.NumSamples) ∧
      (c.NumChannels * c.NumSamples ≤ 70368744177664 →
        ∃ ary, (c.BM E).calls = [Call.carfac_bm c.cf ary]) ∧
      (70368744177664 < c.NumChannels * c.NumSamples →
        (c.BM E).calls = [] ∧ (c.BM E).ret = .error Panic.makesliceLenOutOfRange)) := by
  have hsz := runOps_New_sizing E cfp ops
  rw [← hc] at hsz
  have hmul := mulInt_sizing c.numChannels c.numSamples hch hsm hsz.1 hsz.2
  show ((∀ s, napReports E c (c.NAP E) s → s.val = 0 →
        ∃ buf, (c.NAP E).ret = .ok (some buf, none) ∧
          (buf.length : Int) = c.numChannels * c.numSamples) ∧
      (c.numChannels * c.numSamples ≤ 70368744177664 →
        ∃ ary, (c.NAP E).calls = [Call.carfac_nap c.cf ary]) ∧
      (70368744177664 < c.numChannels * c.numSamples →
        (c.NAP E).calls = [] ∧ (c.NAP E).ret = .error Panic.makesliceLenOutOfRange)) ∧
    ((∀ s, bmReports E c (c.BM E) s → s.val = 0 →
        ∃ buf, (c.BM E).ret = .ok (some buf, none) ∧
          (buf.length : Int) = c.numChannels * c.numSamples) ∧
      (c.numChannels * c.numSamples ≤ 70368744177664 →
        ∃ ary, (c.BM E).calls = [Call.carfac_bm c.cf ary]) ∧
      (70368744177664 < c.numChannels * c.numSamples →
        (c.BM E).calls = [] ∧ (c.BM E).ret = .error Panic.makesliceLenOutOfRange))
  by_cases hbig : c.numChannels * c.numSamples ≤ 70368744177664
  · obtain ⟨ary, floats, hnew, hlen⟩ : ∃ ary floats,
        newFloatAry (mulInt c.numChannels c.numSamples) = .ok (ary, floats) ∧
        (floats.length : Int) = c.numChannels * c.numSamples := by
      refine ⟨_, _, newFloatAry_ok _ (by rw [hmul.1]; exact hmul.2)
        (by rw [hmul.1]; exact hbig), ?_⟩
      rw [List.length_replicate, hmul.1]
      exact Int.toNat_of_nonneg (le_of_lt hmul.2)
    refine ⟨⟨?_, fun _ => ⟨ary, by rw [NAP_called E c ary floats hnew]⟩,
      fun h => absurd hbig (not_le.mpr h)⟩,
      ⟨?_, fun _ => ⟨ary, by rw [BM_called E c ary floats hnew]⟩,
      fun h => absurd hbig (not_le.mpr h)⟩⟩
    · rintro s ⟨a, ha, hs⟩ hz
      rw [NAP_called E c ary floats hnew] at ha ⊢
      simp only [List.mem_singleton, Call.carfac_nap.injEq, true_and] at ha
      subst ha
      rw [← hs] at hz
      refine ⟨storeThrough floats (E.carfac_nap c.cf a).written, ?_, ?_⟩
      · simp only [hz, ne_eq, not_true, if_false]
      · rw [storeThrough_length]
        exact hlen
    · rintro s ⟨a, ha, hs⟩ hz
      rw [BM_called E c ary floats hnew] at ha ⊢
      simp only [List.mem_singleton, Call.carfac_bm.injEq, true_and] at ha
      subst ha
      rw [← hs] at hz
      refine ⟨storeThrough floats (E.carfac_bm c.cf a).written, ?_, ?_⟩
      · simp only [hz, ne_eq, not_true, if_false]
      · rw [storeThrough_length]
        exact hlen
  · have hnew := newFloatAry_too_long (mulInt c.numChannels c.numSamples)
      (by rw [hmul.1]; exact not_le.mp hbig)
    refine ⟨⟨?_, fun h => absurd h hbig, fun _ => by rw [NAP_panicked E c _ hnew]; exact ⟨rfl, rfl⟩⟩,
      ⟨?_, fun h => absurd h hbig, fun _ => by rw [BM_panicked E c _ hnew]; exact ⟨rfl, rfl⟩⟩⟩
    · rintro s ⟨a, ha, _⟩ _
      rw [NAP_panicked E c _ hnew] at ha
      simp at ha
    · rintro s ⟨a, ha, _⟩ _
      rw [BM_panicked E c _ hnew] at ha
      simp at ha

/-- An evaluation of `retrieval_length`. On the counting engine, two channels by three
samples, after one frame has been run, `NAP` returns 6 floats. On the engine with
2^31 - 1 channels by 2^31 - 1 samples `BM` panics in `make` and calls nothing. -/
theorem retrieval_length_witness :
    (0 < (runOps countingEngine (New countingEngine (unsetParams 48000)).result
        [Op.Run [⟨9⟩]]).NumChannels ∧
      0 < (runOps countingEngine (New countingEngine (unsetParams 48000)).result
        [Op.Run [⟨9⟩]]).NumSamples ∧
      ∃ buf, ((runOps countingEngine (New countingEngine (unsetParams 48000)).result
          [Op.Run [⟨9⟩]]).NAP countingEngine).ret = .ok (some buf, none) ∧
        (buf.length : Int) = 2 * 3) ∧
    (0 < (New hugeEngine (unsetParams 48000)).result.NumChannels ∧
      0 < (New hugeEngine (unsetParams 48000)).result.NumSamples ∧
      ((New hugeEngine (unsetParams 48000)).result.BM hugeEngine).calls = [] ∧
      ((New hugeEngine (unsetParams 48000)).result.BM hugeEngine).ret =
        .error Panic.makesliceLenOutOfRange) :=
  ⟨⟨by decide, by decide,
    (retrieval_length countingEngine (unsetParams 48000) [Op.Run [⟨9⟩]] _ rfl (by decide)
      (by decide)).1.1 ⟨0, by decide⟩
      ⟨⟨⟨6, by decide⟩, .goMem (List.replicate 6 float32.zero)⟩, by decide, by decide⟩ rfl⟩,
   ⟨by decide, by decide,
    (retrieval_length hugeEngine (unsetParams 48000) [] _ rfl (by decide)
      (by decide)).2.2.2 (by decide)⟩⟩

theorem NAP_cases {σ : Type} (E : Engine σ) (c : carfac σ) :
    (∃ p, c.NAP E = ⟨[], c, .error p⟩) ∨
    (∃ ary floats, c.NAP E =
      ⟨[Call.carfac_nap c.cf ary], { c with cf := (E.carfac_nap c.cf ary).cf },
       if (E.carfac_nap c.cf ary).errnum.val ≠ 0 then
         .ok (none, some (napErrorf (E.carfac_nap c.cf ary).errnum))
       else .ok (some (storeThrough floats (E.carfac_nap c.cf ary).written), none)⟩) := by
  cases h : newFloatAry (mulInt c.numChannels c.numSamples) with
  | error p => exact Or.inl ⟨p, NAP_panicked E c p h⟩
  | ok r => exact Or.inr ⟨r.1, r.2, NAP_called E c r.1 r.2 h⟩

theorem BM_cases {σ : Type} (E : Engine σ) (c : carfac σ) :
    (∃ p, c.BM E = ⟨[], c, .error p⟩) ∨
    (∃ ary floats, c.BM E =
      ⟨[Call.carfac_bm c.cf ary], { c with cf := (E.carfac_bm c.cf ary).cf },
       if (E.carfac_bm c.cf ary).errnum.val ≠ 0 then
         .ok (none, some (bmErrorf (E.carfac_bm c.cf ary).errnum))
       else .ok (some (storeThrough floats (E.carfac_bm c.cf ary).written), none)⟩) := by
  cases h : newFloatAry (mulInt c.numChannels c.numSamples) with
  | error p => exact Or.inl ⟨p, BM_panicked E c p h⟩
  | ok r => exact Or.inr ⟨r.1, r.2, BM_called E c r.1 r.2 h⟩

theorem NAP_contract {σ : Type} (E : Engine σ) (c : carfac σ) :
    ((∃ buf e, (c.NAP E).ret = .ok (buf, some e)) ↔
      ∃ s, napReports E c (c.NAP E) s ∧ s.val ≠ 0) ∧
    (∀ buf e, (c.NAP E).ret = .ok (buf, some e) → buf = none) ∧
    (∀ s, napReports E c (c.NAP E) s → s.val ≠ 0 →
      (c.NAP E).ret = .ok (none, some (napErrorf s))) ∧
    (∀ s, napReports E c (c.NAP E) s → s.val = 0 →
      ∃ buf, (c.NAP E).ret = .ok (some buf, none)) := by
  rcases NAP_cases E c with ⟨p, hp⟩ | ⟨ary, floats, hc⟩
  · rw [hp]
    simp [napReports]
  · rw [hc]
    by_cases hz : (E.carfac_nap c.cf ary).errnum.val = 0
    · simp only [napReports, hz, ne_eq, not_true, if_false, List.mem_singleton]
      refine ⟨⟨?_, ?_⟩, ?_, ?_, ?_⟩
      · rintro ⟨buf, e, h⟩
        simp at h
      · rintro ⟨s, ⟨a, ha, hs⟩, hne⟩
        simp only [Call.carfac_nap.injEq, true_and] at ha
        subst ha
        rw [← hs] at hne
        exact absurd hz hne
      · intro buf e h
        simp at h
      · rintro s ⟨a, ha, hs⟩ hne
        simp only [Call.carfac_nap.injEq, true_and] at ha
        subst ha
        rw [← hs] at hne
        exact absurd hz hne
      · intro s _ _
        exact ⟨_, rfl⟩
    · simp only [napReports, hz, ne_eq, not_false_eq_true, if_true, List.mem_singleton]
      refine ⟨⟨?_, ?_⟩, ?_, ?_, ?_⟩
      · intro _
        exact ⟨_, ⟨ary, rfl, rfl⟩, hz⟩
      · intro _
        exact ⟨_, _, rfl⟩
      · intro buf e h
        simp only [Except.ok.injEq, Prod.mk.injEq] at h
        exact h.1.symm
      · rintro s ⟨a, ha, hs⟩ _
        simp only [Call.carfac_nap.injEq, true_and] at ha
        subst ha
        rw [hs]
      · rintro s ⟨a, ha, hs⟩ h0
        simp only [Call.carfac_nap.injEq, true_and] at ha
        subst ha
        rw [← hs] at h0
        exact absurd h0 hz

theorem BM_contract {σ : Type} (E : Engine σ) (c : carfac σ) :
    ((∃ buf e, (c.BM E).ret = .ok (buf, some e)) ↔
      ∃ s, bmReports E c (c.BM E) s ∧ s.val ≠ 0) ∧
    (∀ buf e, (c.BM E).ret = .ok (buf, some e) → buf = none) ∧
    (∀ s, bmReports E c (c.BM E) s → s.val ≠ 0 →
      (c.BM E).ret = .ok (none, some (bmErrorf s))) ∧
    (∀ s, bmReports E c (c.BM E) s → s.val = 0 →
      ∃ buf, (c.BM E).ret = .ok (some buf, none)) := by
  rcases BM_cases E c with ⟨p, hp⟩ | ⟨ary, floats, hc⟩
  · rw [hp]
    simp [bmReports]
  · rw [hc]
    by_cases hz : (E.carfac_bm c.cf ary).errnum.val = 0
    · simp only [bmReports, hz, ne_eq, not_true, if_false, List.mem_singleton]
      refine ⟨⟨?_, ?_⟩, ?_, ?_, ?_⟩
      · rintro ⟨buf, e, h⟩
        simp at h
      · rintro ⟨s, ⟨a, ha, hs⟩, hne⟩
        simp only [Call.carfac_bm.injEq, true_and] at ha
        subst ha
        rw [← hs] at hne
        exact absurd hz hne
      · intro buf e h
        simp at h
      · rintro s ⟨a, ha, hs⟩ hne
        simp only [Call.carfac_bm.injEq, true_and] at ha
        subst ha
        rw [← hs] at hne
        exact absurd hz hne
      · intro s _ _
        exact ⟨_, rfl⟩
    · simp only [bmReports, hz, ne_eq, not_false_eq_true, if_true, List.mem_singleton]
      refine ⟨⟨?_, ?_⟩, ?_, ?_, ?_⟩
      · intro _
        exact ⟨_, ⟨ary, rfl, rfl⟩, hz⟩
      · intro _
        exact ⟨_, _, rfl⟩
      · intro buf e h
        simp only [Except.ok.injEq, Prod.mk.injEq] at h
        exact h.1.symm
      · rintro s ⟨a, ha, hs⟩ _
        simp only [Call.carfac_bm.injEq, true_and] at ha
        subst ha
        rw [hs]
      · rintro s ⟨a, ha, hs⟩ h0
        simp only [Call.carfac_bm.injEq, true_and] at ha
        subst ha
        rw [← hs] at h0
        exact absurd h0 hz

/-- C2. `NAP` returns a non-nil error exactly when `carfac_nap` was called and reported a
status other than 0; with the error it returns a nil buffer; and when `carfac_nap`
reported 0 it returns a buffer and a nil error. `BM` does the same with `carfac_bm`. -/
theorem retrieval_failure_contract {σ : Type} (E : Engine σ) (c : carfac σ) :
    (((∃ buf e, (c.NAP E).ret = .ok (buf, some e)) ↔
        ∃ s, napReports E c (c.NAP E) s ∧ s.val ≠ 0) ∧
      (∀ buf e, (c.NAP E).ret = .ok (buf, some e) → buf = none) ∧
      (∀ s, napReports E c (c.NAP E) s → s.val = 0 →
        ∃ buf, (c.NAP E).ret = .ok (some buf, none))) ∧
    (((∃ buf e, (c.BM E).ret = .ok (buf, some e)) ↔
        ∃ s, bmReports E c (c.BM E) s ∧ s.val ≠ 0) ∧
      (∀ buf e, (c.BM E).ret = .ok (buf, some e) → buf = none) ∧
      (∀ s, bmReports E c (c.BM E) s → s.val = 0 →
        ∃ buf, (c.BM E).ret = .ok (some buf, none))) :=
  ⟨⟨(NAP_contract E c).1, (NAP_contract E c).2.1, (NAP_contract E c).2.2.2⟩,
   ⟨(BM_contract E c).1, (BM_contract E c).2.1, (BM_contract E c).2.2.2⟩⟩

/-- An evaluation of `retrieval_failure_contract`: before any frame has been run the
counting engine reports status 7, and `NAP` returns an error. -/
theorem retrieval_failure_contract_witness :
    ∃ buf e, ((New countingEngine (unsetParams 48000)).result.NAP countingEngine).ret =
      .ok (buf, some e) :=
  (retrieval_failure_contract countingEngine
      (New countingEngine (unsetParams 48000)).result).1.1.mpr
    ⟨⟨7, by decide⟩, ⟨⟨⟨6, by decide⟩, .goMem (List.replicate 6 float32.zero)⟩, by decide, by decide⟩,
      by decide⟩

/-- C9. When `carfac_nap` reports a status `s` other than 0, the error `NAP` returns is
the message `napErrorf s`, in which the name `NAP` and the decimal rendering of `s` occur;
likewise for `BM`, `carfac_bm` and `bmErrorf s`. The rendering tells any two integers
apart, so two statuses give two messages, and no message of `NAP` is a message of `BM`. -/
theorem retrieval_error_diagnostics {σ : Type} (E : Engine σ) (c : carfac σ) :
    (∀ s, napReports E c (c.NAP E) s → s.val ≠ 0 →
      (c.NAP E).ret = .ok (none, some (napErrorf s))) ∧
    (∀ s, bmReports E c (c.BM E) s → s.val ≠ 0 →
      (c.BM E).ret = .ok (none, some (bmErrorf s))) ∧
    (∀ s, occursIn "NAP" (napErrorf s) ∧ occursIn (formatInt s.val) (napErrorf s)) ∧
    (∀ s, occursIn "BM" (bmErrorf s) ∧ occursIn (formatInt s.val) (bmErrorf s)) ∧
    (∀ a b : Int, formatInt a = formatInt b → a = b) ∧
    (∀ s t, napErrorf s = napErrorf t → s = t) ∧
    (∀ s t, bmErrorf s = bmErrorf t → s = t) ∧
    (∀ s t, napErrorf s ≠ bmErrorf t) :=
  ⟨(NAP_contract E c).2.2.1, (BM_contract E c).2.2.1, occursIn_napErrorf, occursIn_bmErrorf,
   formatInt_injective, napErrorf_injective, bmErrorf_injective, napErrorf_ne_bmErrorf⟩

/-- An evaluation of `retrieval_error_diagnostics`: the counting engine reports status 7
before any frame has been run, and the error of `BM` reads as Go prints it. -/
theorem retrieval_error_diagnostics_witness :
    ((New countingEngine (unsetParams 48000)).result.BM countingEngine).ret =
      .ok (none, some "Unable to retrieve BM from CARFAC: 7") ∧
    napErrorf ⟨-12, by decide⟩ = "Unable to retrieve NAP from CARFAC: -12" :=
  ⟨((retrieval_error_diagnostics countingEngine
      (New countingEngine (unsetParams 48000)).result).2.1 ⟨7, by decide⟩
      ⟨⟨⟨6, by decide⟩, .goMem (List.replicate 6 float32.zero)⟩, by decide, by decide⟩
      (by decide)).trans (by decide),
   by decide⟩

/-! ## Descriptor lengths -/

/-- C6, as the code has it. The length field of a descriptor is a C `int`. For a non-empty
buffer of at most 2^31 - 1 samples `floatsToFloatAry` builds a descriptor over the samples
whose length field is the number of samples. For a length from 1 to 2^31 - 1
`newFloatAry` returns that many zeros and a descriptor over them whose length field is the
number of zeros. -/
theorem descriptor_length :
    (∀ floats : List float32, floats ≠ [] → floats.length ≤ 2147483647 →
      ∃ ary, floatsToFloatAry floats = .ok ary ∧ ary.data = .goMem floats ∧
        ary.len.val = (floats.length : Int)) ∧
    (∀ length : Int, 1 ≤ length → length ≤ 2147483647 →
      ∃ ary floats, newFloatAry length = .ok (ary, floats) ∧ ary.data = .goMem floats ∧
        (floats.length : Int) = length ∧ (∀ x ∈ floats, x = float32.zero) ∧
        ary.len.val = (floats.length : Int)) := by
  constructor
  · intro floats hne hle
    refine ⟨_, floatsToFloatAry_ok floats hne, rfl, ?_⟩
    exact wrapSigned_32_eq _ (by omega) (by omega)
  · intro length hpos hle
    have hlen : ((List.replicate length.toNat float32.zero).length : Int) = length := by
      rw [List.length_replicate]
      exact Int.toNat_of_nonneg (by omega)
    refine ⟨_, _, newFloatAry_ok length (by omega) (by omega), rfl, hlen, ?_, ?_⟩
    · intro x hx
      exact List.eq_of_mem_replicate hx
    · rw [hlen]
      exact wrapSigned_32_eq _ (by omega) hle

/-- An evaluation of `descriptor_length`: a buffer of three samples gets the length
field 3. -/
theorem descriptor_length_witness :
    ∃ ary, floatsToFloatAry [⟨7⟩, ⟨8⟩, ⟨9⟩] = .ok ary ∧ ary.len.val = 3 :=
  (descriptor_length.1 [⟨7⟩, ⟨8⟩, ⟨9⟩] (by decide) (by decide)).imp
    (fun _ h => ⟨h.1, h.2.2⟩)

/-- C6 fails as stated: a buffer of 2^31 samples gets a descriptor whose length field is
-2^31, and `newFloatAry` of 2^31 returns 2^31 zeros with a descriptor whose length field
is -2^31. -/
theorem descriptor_length_counterexample :
    (List.replicate 2147483648 float32.zero).length = 2147483648 ∧
    (floatsToFloatAry (List.replicate 2147483648 float32.zero)).map (fun ary => ary.len.val) =
      .ok (-2147483648) ∧
    (newFloatAry 2147483648).map (fun r => (r.1.len.val, r.2.length)) =
      .ok (-2147483648, 2147483648) := by
  have hlen : (List.replicate 2147483648 float32.zero).length = 2147483648 :=
    List.length_replicate _ _
  have hne : List.replicate 2147483648 float32.zero ≠ [] := by
    intro h
    rw [h] at hlen
    exact absurd hlen (by decide)
  refine ⟨hlen, ?_, ?_⟩
  · rw [floatsToFloatAry_ok _ hne, hlen]
    decide
  · rw [newFloatAry_ok 2147483648 (by decide) (by decide)]
    show Except.ok ((toCInt 2147483648).val,
      (List.replicate (2147483648 : Int).toNat float32.zero).length) = _
    rw [List.length_replicate]
    decide

end Carfac
